import Mathlib

/-!
Verification of the deepnote voice frequency-animation engine.

Shallow embedding of the C++ sources of the repository:
  - `src/ranges/range.hpp`        : `Range` (closed interval, swap-normalising ctor)
  - `src/ranges/range.cpp`        : `Scaler` (normalize-then-rescale mapping)
  - `src/unitshapers/bezier.hpp`  : `BezierUnitShaper`
  - `src/voice/deepnotevoice.hpp` : `DeepnoteVoice`, its setters, `init_voice`,
    `calculate_shaped_frequency`, `update_voice_state`, `constrain_frequency`,
    `detune_oscillators`, `process_voice`.

C++ `float` values are modelled as exact rationals (`ℚ`); where the behaviour
of IEEE special values (NaN, ±infinity) is itself the property under study,
a dedicated five-constructor model `FVal` with IEEE comparison semantics is
used.  Fallible C++ code (functions that `throw std::invalid_argument`)
is modelled with `Except String`; in the source every `throw` happens before
any member mutation, so an `.error` result corresponds to an unchanged voice.

The DaisySP waveform oscillator is an external library (not part of this
repository); the animation LFO built on it is modelled from the spec
(ProgressClock, spec section 4.4), and waveform sample production is treated
as a black box: the embedding tracks the frequency each oscillator is set to.
-/

namespace Deepnote

/-! ## Constants (deepnotevoice.hpp, namespace constants) -/

def DEFAULT_LFO_AMPLITUDE : ℚ := 1/2

def DEFAULT_DETUNE_HZ : ℚ := 5/2

def TARGET_FREQUENCY_TOLERANCE : ℚ := 1

/-! ## Range (ranges/range.hpp)

`Range(low, high)` stores `low := (low < high ? low : high)` and
`high := (high > low ? high : low)`: the constructor swap-normalises so that
`low ≤ high` always holds afterwards. -/

structure Range where
  low : ℚ
  high : ℚ
deriving DecidableEq, Repr

def Range.make (low high : ℚ) : Range :=
  { low := if low < high then low else high
    high := if high > low then high else low }

def Range.length (r : Range) : ℚ := r.high - r.low

def Range.contains (r : Range) (value : ℚ) : Bool :=
  value ≥ r.low && value ≤ r.high

def Range.constrain (r : Range) (value : ℚ) : ℚ :=
  if value < r.low then r.low
  else if value > r.high then r.high
  else value

/-! ## Scaler (ranges/range.cpp, struct Scaler)

`operator()(value) = normalize(value) * output.length() + output.low` with
`normalize(value) = (value - input.low) / input.length()`.  NOTE: the source
has no guard for a zero-width input range; in exact `ℚ` arithmetic Lean's
division by zero returns 0, which does not match IEEE semantics, so the
zero-width behaviour is studied separately on the `FVal` model below.  Every
use of `Scaler` by the voice has input range `[0,1]` (length 1), where the
`ℚ` model is exact. -/

structure Scaler where
  input : Range
  output : Range
deriving DecidableEq, Repr

def Scaler.normalize (s : Scaler) (value : ℚ) : ℚ :=
  (value - s.input.low) / s.input.length

def Scaler.apply (s : Scaler) (value : ℚ) : ℚ :=
  s.normalize value * s.output.length + s.output.low

/-! ## BezierUnitShaper (unitshapers/bezier.hpp)

Fields `y1 = 0` (start point) and `y4 = 1` (end point) are fixed by the
default member initialisers; the constructor takes the two free control
points.  `operator()` is copied verbatim, including the source's
`(1 - t) * (1 - t) * y1` first term (quadratic, not cubic, in `(1 - t)`;
irrelevant at runtime because `y1 = 0`). -/

structure BezierUnitShaper where
  y1 : ℚ
  y2 : ℚ
  y3 : ℚ
  y4 : ℚ
deriving DecidableEq, Repr

def BezierUnitShaper.make (y2 y3 : ℚ) : BezierUnitShaper :=
  { y1 := 0, y2 := y2, y3 := y3, y4 := 1 }

def BezierUnitShaper.apply (b : BezierUnitShaper) (t : ℚ) : ℚ :=
  (1 - t) * (1 - t) * b.y1
    + 3 * (1 - t) * (1 - t) * t * b.y2
    + 3 * (1 - t) * t * t * b.y3
    + t * t * t * b.y4

/-- **C6.** For every pair of Bezier control points `(y2, y3)`, including
values outside `[0,1]`, the `BezierUnitShaper` evaluates to exactly 0 at
`t = 0` and exactly 1 at `t = 1`: endpoint pinning holds regardless of the
control points. -/
theorem C6_bezier_endpoint_pinning (y2 y3 : ℚ) :
    (BezierUnitShaper.make y2 y3).apply 0 = 0 ∧
    (BezierUnitShaper.make y2 y3).apply 1 = 1 := by
  constructor <;> simp [BezierUnitShaper.make, BezierUnitShaper.apply]

/-! ## Voice state (deepnotevoice.hpp, enum State) -/

inductive State where
  | PENDING_TRANSIT_TO_TARGET
  | IN_TRANSIT_TO_TARGET
  | AT_TARGET
deriving DecidableEq, Repr

/-! ## Animation LFO

Modelled from the spec: the DaisySP `Oscillator` used as the animation LFO is
an external library not contained in this repository; the spec describes it
as the ProgressClock (spec section 4.4): a repeating ramp in
`[-amplitude, +amplitude]` (amplitude 0.5) whose cycle frequency is
`lfo_base_freq * animation_multiplier`, with `reset()` snapping the phase back
to the ramp start.  The phase is kept here as a unit phase in `[0, 1)`; one
`Process()` call emits the ramp value for the current phase and then advances
the phase by `freq / sample_rate`, wrapping once when it exceeds 1. -/

structure Lfo where
  sampleRate : ℚ
  freq : ℚ
  phase : ℚ
deriving DecidableEq, Repr

/-- Modelled from the spec: `Oscillator::Init(sample_rate)` of the external
DaisySP library resets the phase; the voice then sets amplitude 0.5, the RAMP
waveform, and the base frequency (see `DeepnoteVoice::init_lfo`). -/
def Lfo.init (sampleRate : ℚ) : Lfo :=
  { sampleRate := sampleRate, freq := 100, phase := 0 }

/-- Modelled from the spec: `Oscillator::SetFreq` of the external DaisySP
library stores the new cycle frequency; the phase is unchanged. -/
def Lfo.setFreq (l : Lfo) (f : ℚ) : Lfo := { l with freq := f }

/-- Modelled from the spec: `Oscillator::Reset` of the external DaisySP
library snaps the phase back to the ramp start (progress 0). -/
def Lfo.reset (l : Lfo) : Lfo := { l with phase := 0 }

/-- Modelled from the spec: the ramp output emitted by one `Process()` call of
the external DaisySP oscillator, in `[-amplitude, +amplitude]` for the current
phase. -/
def Lfo.out (l : Lfo) : ℚ := DEFAULT_LFO_AMPLITUDE * (2 * l.phase - 1)

/-- Modelled from the spec: the phase advance performed by one `Process()`
call of the external DaisySP oscillator: the unit phase grows by
`freq / sample_rate` and wraps once past 1. -/
def Lfo.advance (l : Lfo) : Lfo :=
  let p := l.phase + l.freq / l.sampleRate
  { l with phase := if p > 1 then p - 1 else p }

/-! ## DeepnoteVoice (deepnotevoice.hpp)

The C++ class holds a fixed `std::array` of `MAX_OSCILLATORS = 16`
`DetunedOscillator` slots plus a runtime `oscillator_count`; the embedding
keeps the list of the `oscillator_count` active oscillators.  Waveform sample
production (`daisysp::Oscillator::Process`, a POLYBLEP sawtooth) is the
black-box raw oscillator of spec section 1; the embedding tracks the
frequency each oscillator is set to. -/

structure DetunedOscillator where
  freq : ℚ
  detune_amount : ℚ
deriving DecidableEq, Repr

structure DeepnoteVoice where
  state : State
  start_frequency : ℚ
  target_frequency : ℚ
  current_frequency : ℚ
  oscillators : List DetunedOscillator
  lfo_base_freq : ℚ
  lfo : Lfo
deriving DecidableEq, Repr

def MAX_OSCILLATORS : ℕ := 16

/-- `DeepnoteVoice::set_target_frequency`: rejects a negative frequency
(the `throw` happens before any member is written, so on error the C++ object
is unchanged); otherwise captures the current frequency as the new start,
stores the new target and re-arms `PENDING_TRANSIT_TO_TARGET`. -/
def set_target_frequency (v : DeepnoteVoice) (freq : ℚ) : Except String DeepnoteVoice :=
  if freq < 0 then .error "Target frequency must be non-negative"
  else .ok { v with
    start_frequency := v.current_frequency
    target_frequency := freq
    state := .PENDING_TRANSIT_TO_TARGET }

/-- `DeepnoteVoice::set_start_frequency`. -/
def set_start_frequency (v : DeepnoteVoice) (freq : ℚ) : Except String DeepnoteVoice :=
  if freq < 0 then .error "Start frequency must be non-negative"
  else .ok { v with
    start_frequency := freq
    current_frequency := freq
    state := .PENDING_TRANSIT_TO_TARGET }

/-- `DeepnoteVoice::set_current_frequency` (noexcept setter). -/
def set_current_frequency (v : DeepnoteVoice) (freq : ℚ) : DeepnoteVoice :=
  { v with current_frequency := freq }

/-- `DeepnoteVoice::scale_lfo_base_freq`: rejects a negative animation
multiplier, otherwise sets the LFO frequency to
`lfo_base_freq * multiplier`. -/
def scale_lfo_base_freq (v : DeepnoteVoice) (multiplier : ℚ) : Except String DeepnoteVoice :=
  if multiplier < 0 then .error "Animation multiplier must be non-negative"
  else .ok { v with lfo := v.lfo.setFreq (v.lfo_base_freq * multiplier) }

/-- `DeepnoteVoice::process_lfo`: one LFO `Process()` call plus the
`+ LFO_AMPLITUDE` offset that turns the ramp into raw progress. -/
def process_lfo (v : DeepnoteVoice) : ℚ × DeepnoteVoice :=
  (v.lfo.out + DEFAULT_LFO_AMPLITUDE, { v with lfo := v.lfo.advance })

/-- `DeepnoteVoice::init_lfo`: validates the sample rate and the base
frequency, then initialises the LFO (amplitude and waveform are fixed) and
sets its frequency to the base frequency. -/
def init_lfo (v : DeepnoteVoice) (sample_rate base_freq : ℚ) : Except String DeepnoteVoice :=
  if sample_rate ≤ 0 then .error "Sample rate must be positive"
  else if base_freq < 0 then .error "LFO base frequency must be non-negative"
  else .ok { v with
    lfo_base_freq := base_freq
    lfo := (Lfo.init sample_rate).setFreq base_freq }

/-- `DeepnoteVoice::init_oscillators`: validates the count (1..16), the
sample rate and the start frequency, then gives every active oscillator the
start frequency and zero detune. -/
def init_oscillators (v : DeepnoteVoice) (count : ℕ) (sample_rate start_frequency : ℚ) :
    Except String DeepnoteVoice :=
  if count = 0 then .error "Oscillator count must be at least 1"
  else if count > MAX_OSCILLATORS then .error "Oscillator count exceeds maximum of 16"
  else if sample_rate ≤ 0 then .error "Sample rate must be positive"
  else if start_frequency < 0 then .error "Start frequency must be non-negative"
  else .ok { v with
    oscillators := List.replicate count { freq := start_frequency, detune_amount := 0 } }

/-! ### Detune ladder (`DeepnoteVoice::detune_oscillators`)

The source computes `const int8_t idx = i - half + ((i >= half) ? 1 : 0);`
with `i`, `half` of type `size_t`: the subtraction wraps modulo `2^64` and
the narrowing conversion to `int8_t` reduces modulo `2^8` into `[-128, 127]`.
Both steps are modelled explicitly and collapsed by `detuneIdx_eq` for the
in-range oscillator counts (at most 16). -/

def wrap64 (z : ℤ) : ℕ := (z % (2 ^ 64 : ℤ)).toNat

def toInt8 (n : ℕ) : ℤ :=
  let m : ℤ := (n : ℤ) % 2 ^ 8
  if m < 2 ^ 7 then m else m - 2 ^ 8

def detuneIdx (count i : ℕ) : ℤ :=
  let half := count / 2
  toInt8 (wrap64 ((i : ℤ) - (half : ℤ) + (if i ≥ half then 1 else 0)))

/-- `DeepnoteVoice::detune_oscillators`: with one oscillator the detune is 0;
otherwise oscillator `i` gets `idx * detune` with the symmetric integer index
ladder. -/
def detune_oscillators (v : DeepnoteVoice) (detune : ℚ) : DeepnoteVoice :=
  let count := v.oscillators.length
  { v with oscillators := v.oscillators.mapIdx fun i o =>
      if count ≤ 1 then { o with detune_amount := 0 }
      else { o with detune_amount := (detuneIdx count i : ℚ) * detune } }

/-- `DeepnoteVoice::process_oscillators`: every active oscillator is retuned
to `current_frequency + detune_amount`; the summed waveform sample comes from
the black-box raw oscillators and is not tracked. -/
def process_oscillators (v : DeepnoteVoice) : DeepnoteVoice :=
  { v with oscillators := v.oscillators.map fun o =>
      { o with freq := v.current_frequency + o.detune_amount } }

/-- Free function `init_voice` (deepnotevoice.hpp): set start, current and
target frequency to the start value, re-arm PENDING, initialise the LFO and
the oscillator bank, and apply the default detune ladder. -/
def init_voice (v : DeepnoteVoice) (oscillator_count : ℕ)
    (start_frequency sample_rate lfo_frequency : ℚ)
    (detune : ℚ := DEFAULT_DETUNE_HZ) : Except String DeepnoteVoice :=
  match set_start_frequency v start_frequency with
  | .error e => .error e
  | .ok v =>
    let v := set_current_frequency v start_frequency
    match set_target_frequency v start_frequency with
    | .error e => .error e
    | .ok v =>
      let v := { v with state := .PENDING_TRANSIT_TO_TARGET }
      match init_lfo v sample_rate lfo_frequency with
      | .error e => .error e
      | .ok v =>
        match init_oscillators v oscillator_count sample_rate start_frequency with
        | .error e => .error e
        | .ok v => .ok (detune_oscillators v detune)

/-! ## Per-sample processing (deepnotevoice.hpp, anonymous namespace and
`process_voice`) -/

/-- The pure part of `calculate_shaped_frequency`: shape the raw LFO progress
with the Bezier curve, flip it when the transit runs downwards, and scale the
unit value into the start/target span with a `Scaler` from `[0, 1]` onto
`Range(start, target)` (whose constructor swap-normalises the bounds). -/
def shaped_scaled (start_frequency target_frequency raw_lfo_value cp1 cp2 : ℚ) : ℚ :=
  let shaped_lfo_value := (BezierUnitShaper.make cp1 cp2).apply raw_lfo_value
  let shaped_lfo_value :=
    if start_frequency > target_frequency then 1 - shaped_lfo_value else shaped_lfo_value
  let animationScaler : Scaler :=
    { input := Range.make 0 1, output := Range.make start_frequency target_frequency }
  animationScaler.apply shaped_lfo_value

/-- `calculate_shaped_frequency`: scales the LFO rate by the animation
multiplier (which can fail on a negative multiplier), takes one LFO sample,
and returns the shaped, scaled frequency together with the voice whose LFO
has advanced. -/
def calculate_shaped_frequency (v : DeepnoteVoice) (lfo_multiplier cp1 cp2 : ℚ) :
    Except String (ℚ × DeepnoteVoice) :=
  match scale_lfo_base_freq v lfo_multiplier with
  | .error e => .error e
  | .ok v =>
    let raw_lfo_value := (process_lfo v).1
    let v := (process_lfo v).2
    .ok (shaped_scaled v.start_frequency v.target_frequency raw_lfo_value cp1 cp2, v)

/-- `update_voice_state`: inside the valid `[min(start,target),
max(start,target)]` range an in-transit voice snaps to `AT_TARGET` once the
frequency is within `TARGET_FREQUENCY_TOLERANCE` of the target; outside the
valid range an in-transit voice snaps to `AT_TARGET` immediately. -/
def update_voice_state (v : DeepnoteVoice) (current_state : State)
    (current_frequency : ℚ) : State :=
  let freq_low := min v.start_frequency v.target_frequency
  let freq_high := max v.start_frequency v.target_frequency
  let validFrequencyRange := Range.make freq_low freq_high
  if validFrequencyRange.contains current_frequency then
    if current_state = .IN_TRANSIT_TO_TARGET then
      let targetRange := Range.make
        (v.target_frequency - TARGET_FREQUENCY_TOLERANCE)
        (v.target_frequency + TARGET_FREQUENCY_TOLERANCE)
      if targetRange.contains current_frequency then .AT_TARGET else current_state
    else current_state
  else
    if current_state = .IN_TRANSIT_TO_TARGET then .AT_TARGET else current_state

/-- `constrain_frequency`: clamp into `[min(start,target),
max(start,target)]`. -/
def constrain_frequency (v : DeepnoteVoice) (frequency : ℚ) : ℚ :=
  let freq_low := min v.start_frequency v.target_frequency
  let freq_high := max v.start_frequency v.target_frequency
  (Range.make freq_low freq_high).constrain frequency

/-- `process_voice`: consume a pending state (resetting the LFO), then either
hold the target frequency (`AT_TARGET`) or compute the shaped frequency,
update the state, clamp, snap to the exact target when the target was
reached, and finally retune the oscillator bank.  The summed oscillator
sample returned by the C++ function is produced by the black-box raw
oscillators; the embedding returns the updated voice. -/
def process_voice (v0 : DeepnoteVoice) (lfo_multiplier cp1 cp2 : ℚ) :
    Except String DeepnoteVoice :=
  let in_state := v0.state
  let v := if in_state = .PENDING_TRANSIT_TO_TARGET then { v0 with lfo := v0.lfo.reset } else v0
  let state := if in_state = .PENDING_TRANSIT_TO_TARGET then .IN_TRANSIT_TO_TARGET else in_state
  if state = .AT_TARGET then
    let v := set_current_frequency v v.target_frequency
    let v := { v with state := state }
    .ok (process_oscillators v)
  else
    match calculate_shaped_frequency v lfo_multiplier cp1 cp2 with
    | .error e => .error e
    | .ok (current_frequency, v) =>
      let state := update_voice_state v state current_frequency
      let current_frequency := constrain_frequency v current_frequency
      let current_frequency :=
        if state = .AT_TARGET then v.target_frequency else current_frequency
      let v := set_current_frequency v current_frequency
      let v := { v with state := state }
      .ok (process_oscillators v)

/-! ## IEEE special-value model

For the claims in which the behaviour of C++ `float` on NaN and ±infinity is
itself the property under study, values are modelled by `FVal`: an exact
rational, or one of NaN, +infinity, -infinity.  Comparisons follow IEEE 754:
every comparison with NaN is false, the infinities compare as extreme
elements.  Arithmetic on finite values is exact rational arithmetic (rounding
and overflow of the binary32 format are not modelled); arithmetic involving
the special values follows IEEE 754 (`0 * inf = NaN`, `x / 0` with `x ≠ 0`
gives a signed infinity, `0 / 0 = NaN`, NaN propagates). -/

inductive FVal where
  | nan
  | inf
  | ninf
  | fin (q : ℚ)
deriving DecidableEq, Repr

def FVal.isFinite : FVal → Bool
  | .fin _ => true
  | _ => false

/-- IEEE `<=` on `FVal`. -/
def FVal.fle : FVal → FVal → Bool
  | .nan, _ => false
  | _, .nan => false
  | .ninf, _ => true
  | _, .ninf => false
  | _, .inf => true
  | .inf, _ => false
  | .fin a, .fin b => a ≤ b

/-- IEEE `<` on `FVal`. -/
def FVal.flt : FVal → FVal → Bool
  | .nan, _ => false
  | _, .nan => false
  | .ninf, .ninf => false
  | .ninf, _ => true
  | _, .ninf => false
  | .inf, _ => false
  | _, .inf => true
  | .fin a, .fin b => a < b

/-- IEEE addition on `FVal` (finite case exact). -/
def FVal.add : FVal → FVal → FVal
  | .nan, _ => .nan
  | _, .nan => .nan
  | .inf, .ninf => .nan
  | .ninf, .inf => .nan
  | .inf, _ => .inf
  | _, .inf => .inf
  | .ninf, _ => .ninf
  | _, .ninf => .ninf
  | .fin a, .fin b => .fin (a + b)

/-- IEEE subtraction on `FVal` (finite case exact). -/
def FVal.sub : FVal → FVal → FVal
  | .nan, _ => .nan
  | _, .nan => .nan
  | .inf, .inf => .nan
  | .ninf, .ninf => .nan
  | .inf, _ => .inf
  | _, .inf => .ninf
  | .ninf, _ => .ninf
  | _, .ninf => .inf
  | .fin a, .fin b => .fin (a - b)

/-- IEEE multiplication on `FVal` (finite case exact): a zero times an
infinity is NaN, otherwise infinities keep the sign rule. -/
def FVal.mul : FVal → FVal → FVal
  | .nan, _ => .nan
  | _, .nan => .nan
  | .inf, .inf => .inf
  | .inf, .ninf => .ninf
  | .ninf, .inf => .ninf
  | .ninf, .ninf => .inf
  | .inf, .fin b => if b = 0 then .nan else if b > 0 then .inf else .ninf
  | .fin a, .inf => if a = 0 then .nan else if a > 0 then .inf else .ninf
  | .ninf, .fin b => if b = 0 then .nan else if b > 0 then .ninf else .inf
  | .fin a, .ninf => if a = 0 then .nan else if a > 0 then .ninf else .inf
  | .fin a, .fin b => .fin (a * b)

/-- IEEE division on `FVal` (finite case with non-zero divisor exact):
division of a non-zero finite value by zero gives a signed infinity,
`0 / 0` gives NaN, an infinity divided by a finite value keeps the sign
rule, an infinity divided by an infinity is NaN. -/
def FVal.div : FVal → FVal → FVal
  | .nan, _ => .nan
  | _, .nan => .nan
  | .inf, .inf => .nan
  | .inf, .ninf => .nan
  | .ninf, .inf => .nan
  | .ninf, .ninf => .nan
  | .inf, .fin b => if b ≥ 0 then .inf else .ninf
  | .ninf, .fin b => if b ≥ 0 then .ninf else .inf
  | .fin _, .inf => .fin 0
  | .fin _, .ninf => .fin 0
  | .fin a, .fin b =>
      if b = 0 then (if a = 0 then .nan else if a > 0 then .inf else .ninf)
      else .fin (a / b)

/-- `Range::contains` on an IEEE value against finite bounds: the C++
`value >= low && value <= high` is false whenever `value` is NaN, false for
either infinity against finite bounds. -/
def containsF (low high : ℚ) (value : FVal) : Bool :=
  (FVal.fle (.fin low) value) && (FVal.fle value (.fin high))

/-- `Range::constrain` on an IEEE value against finite bounds: the C++
`if (value < low) ... if (value > high) ...` tests are both false for NaN,
so NaN passes through unclamped. -/
def constrainF (low high : ℚ) (value : FVal) : FVal :=
  if FVal.flt value (.fin low) then .fin low
  else if FVal.flt (.fin high) value then .fin high
  else value

/-- `update_voice_state` with an IEEE current-frequency value (start and
target frequencies finite). -/
def update_voice_stateF (start_frequency target_frequency : ℚ) (current_state : State)
    (current_frequency : FVal) : State :=
  let freq_low := min start_frequency target_frequency
  let freq_high := max start_frequency target_frequency
  if containsF freq_low freq_high current_frequency then
    if current_state = .IN_TRANSIT_TO_TARGET then
      if containsF (target_frequency - TARGET_FREQUENCY_TOLERANCE)
          (target_frequency + TARGET_FREQUENCY_TOLERANCE) current_frequency then
        .AT_TARGET
      else current_state
    else current_state
  else
    if current_state = .IN_TRANSIT_TO_TARGET then .AT_TARGET else current_state

/-- The frequency/state update of the transit branch of `process_voice`
(lines 418-427 of deepnotevoice.hpp) with the unclamped shaped frequency
abstracted to an arbitrary IEEE value: state update, clamping into the valid
range, and the snap to the exact target when `AT_TARGET` was reached.  Every
choice of Bezier control points — NaN and ±infinity included — produces some
`FVal` as the unclamped frequency, so properties proved for all `FVal`
cover all control points. -/
def transit_stepF (start_frequency target_frequency : ℚ) (unclamped : FVal) :
    FVal × State :=
  let state := update_voice_stateF start_frequency target_frequency
    .IN_TRANSIT_TO_TARGET unclamped
  let current_frequency := constrainF (min start_frequency target_frequency)
    (max start_frequency target_frequency) unclamped
  let current_frequency :=
    if state = .AT_TARGET then .fin target_frequency else current_frequency
  (current_frequency, state)

/-- The `Scaler` of ranges/range.cpp evaluated with IEEE semantics: the
input/output ranges have finite (already swap-normalised) bounds and the
scaled value is an IEEE value.  `scaleF` is
`normalize(value) * output.length() + output.low` with
`normalize(value) = (value - input.low) / input.length()`, exactly as in the
source, with no guard for a zero-width input range. -/
def scaleF (input output : Range) (value : FVal) : FVal :=
  let normalized := (value.sub (.fin input.low)).div (.fin input.length)
  (normalized.mul (.fin output.length)).add (.fin output.low)

/-! ## Basic lemmas about the embedded components -/

theorem Range.make_low (a b : ℚ) : (Range.make a b).low = min a b := by
  simp only [Range.make, min_def]
  split_ifs <;> linarith

theorem Range.make_high (a b : ℚ) : (Range.make a b).high = max a b := by
  simp only [Range.make, max_def]
  split_ifs <;> linarith

theorem Range.contains_iff (a b x : ℚ) :
    (Range.make a b).contains x = true ↔ min a b ≤ x ∧ x ≤ max a b := by
  simp [Range.contains, Range.make_low, Range.make_high]

theorem Range.constrain_mem (r : Range) (hr : r.low ≤ r.high) (x : ℚ) :
    r.low ≤ r.constrain x ∧ r.constrain x ≤ r.high := by
  unfold Range.constrain
  split_ifs <;> constructor <;> linarith

theorem Range.constrain_of_mem (r : Range) (x : ℚ) (h1 : r.low ≤ x) (h2 : x ≤ r.high) :
    r.constrain x = x := by
  unfold Range.constrain
  split_ifs <;> linarith

theorem Range.constrain_mono (r : Range) (hr : r.low ≤ r.high) (x y : ℚ) (h : x ≤ y) :
    r.constrain x ≤ r.constrain y := by
  unfold Range.constrain
  split_ifs <;> linarith

/-- The flip-then-scale pipeline of `calculate_shaped_frequency` collapses in
both transit directions to the same affine formula: the unclamped frequency
is `start + shape(raw) * (target - start)`.  (For a downward transit the
`Range` constructor swaps the scaler's output bounds and the shaped value is
flipped; the two effects cancel.) -/
theorem shaped_scaled_eq (s t r c1 c2 : ℚ) :
    shaped_scaled s t r c1 c2 =
      s + (BezierUnitShaper.make c1 c2).apply r * (t - s) := by
  have h01 : Range.make 0 1 = { low := 0, high := 1 } := by decide
  unfold shaped_scaled Scaler.apply Scaler.normalize Range.length
  rw [h01]
  dsimp only
  rw [Range.make_low, Range.make_high]
  rcases lt_trichotomy s t with h | h | h
  · rw [if_neg (not_lt.2 h.le), min_eq_left h.le, max_eq_right h.le]
    ring
  · subst h
    rw [if_neg (lt_irrefl s), min_self, max_self]
    ring
  · rw [if_pos h, min_eq_right h.le, max_eq_left h.le]
    ring

/-! ## Characterisation of one `process_voice` call

The lemmas below compute the exact result of `process_voice` in its two
branches; every claim about the per-sample behaviour is derived from them. -/

/-- Raw LFO progress consumed by a transit `process_voice` call: a pending
voice resets the LFO first, so its progress is 0. -/
def transit_progress (v : DeepnoteVoice) : ℚ :=
  if v.state = .PENDING_TRANSIT_TO_TARGET then 0 else v.lfo.phase

/-- The raw (unclamped) shaped-and-scaled frequency a transit `process_voice`
call computes. -/
def transit_unclamped (v : DeepnoteVoice) (cp1 cp2 : ℚ) : ℚ :=
  shaped_scaled v.start_frequency v.target_frequency (transit_progress v) cp1 cp2

/-- The state a transit `process_voice` call ends in. -/
def transit_state (v : DeepnoteVoice) (cp1 cp2 : ℚ) : State :=
  update_voice_state v .IN_TRANSIT_TO_TARGET (transit_unclamped v cp1 cp2)

/-- The current frequency a transit `process_voice` call ends with. -/
def transit_current (v : DeepnoteVoice) (cp1 cp2 : ℚ) : ℚ :=
  if transit_state v cp1 cp2 = .AT_TARGET then v.target_frequency
  else constrain_frequency v (transit_unclamped v cp1 cp2)

/-- The LFO state after a transit `process_voice` call: frequency rescaled to
`lfo_base_freq * multiplier`, phase advanced from the consumed progress. -/
def transit_lfo (v : DeepnoteVoice) (m : ℚ) : Lfo :=
  (Lfo.setFreq { v.lfo with phase := transit_progress v } (v.lfo_base_freq * m)).advance

/-- The `+ LFO_AMPLITUDE` offset of `process_lfo` turns the ramp output into
the unit phase itself. -/
theorem lfo_out_progress (l : Lfo) : l.out + DEFAULT_LFO_AMPLITUDE = l.phase := by
  unfold Lfo.out DEFAULT_LFO_AMPLITUDE
  ring

theorem calculate_shaped_frequency_ok (v : DeepnoteVoice) (m c1 c2 : ℚ) (hm : 0 ≤ m) :
    calculate_shaped_frequency v m c1 c2 =
      .ok (shaped_scaled v.start_frequency v.target_frequency v.lfo.phase c1 c2,
        { v with lfo := (v.lfo.setFreq (v.lfo_base_freq * m)).advance }) := by
  unfold calculate_shaped_frequency scale_lfo_base_freq process_lfo
  rw [if_neg (not_lt.2 hm)]
  dsimp only
  rw [lfo_out_progress]
  rfl

/-- A `process_voice` call on a voice not at target: explicit result. -/
theorem process_voice_transit (v : DeepnoteVoice) (m c1 c2 : ℚ) (hm : 0 ≤ m)
    (hst : v.state ≠ .AT_TARGET) :
    process_voice v m c1 c2 =
      .ok { state := transit_state v c1 c2
            start_frequency := v.start_frequency
            target_frequency := v.target_frequency
            current_frequency := transit_current v c1 c2
            oscillators := v.oscillators.map fun o =>
              { o with freq := transit_current v c1 c2 + o.detune_amount }
            lfo_base_freq := v.lfo_base_freq
            lfo := transit_lfo v m } := by
  unfold process_voice
  dsimp only
  by_cases hp : v.state = .PENDING_TRANSIT_TO_TARGET
  · simp only [if_pos hp,
      if_neg (show ¬ (State.IN_TRANSIT_TO_TARGET = State.AT_TARGET) by intro h; cases h)]
    rw [calculate_shaped_frequency_ok _ m c1 c2 hm]
    simp only [transit_current, transit_state, transit_unclamped, transit_progress,
      transit_lfo, if_pos hp, set_current_frequency, process_oscillators, Lfo.reset]
    rfl
  · have hin : v.state = .IN_TRANSIT_TO_TARGET := by
      cases hv : v.state
      · exact absurd hv hp
      · rfl
      · exact absurd hv hst
    simp only [if_neg hp, if_neg hst]
    rw [calculate_shaped_frequency_ok v m c1 c2 hm]
    simp only [transit_current, transit_state, transit_unclamped, transit_progress,
      transit_lfo, if_neg hp, set_current_frequency, process_oscillators, hin]
    rfl

/-- A transit `process_voice` call with a negative multiplier propagates the
`scale_lfo_base_freq` error. -/
theorem process_voice_error_of_neg (v : DeepnoteVoice) (m c1 c2 : ℚ) (hm : m < 0)
    (hst : v.state ≠ .AT_TARGET) :
    process_voice v m c1 c2 = .error "Animation multiplier must be non-negative" := by
  unfold process_voice calculate_shaped_frequency scale_lfo_base_freq
  dsimp only
  rw [if_pos hm]
  by_cases hp : v.state = .PENDING_TRANSIT_TO_TARGET
  · simp only [if_pos hp,
      if_neg (show ¬ (State.IN_TRANSIT_TO_TARGET = State.AT_TARGET) by intro h; cases h)]
  · simp only [if_neg hp, if_neg hst]

/-- A `process_voice` call on a voice at target holds the exact target
frequency and stays at `AT_TARGET`; no error branch is reachable. -/
theorem process_voice_at_target (v : DeepnoteVoice) (m c1 c2 : ℚ)
    (hst : v.state = .AT_TARGET) :
    process_voice v m c1 c2 =
      .ok { v with
        current_frequency := v.target_frequency
        state := .AT_TARGET
        oscillators := v.oscillators.map fun o =>
          { o with freq := v.target_frequency + o.detune_amount } } := by
  unfold process_voice
  dsimp only
  have hnp : ¬ v.state = .PENDING_TRANSIT_TO_TARGET := by rw [hst]; intro h; cases h
  simp only [if_neg hnp, if_pos hst, set_current_frequency, process_oscillators]
  rw [hst]

/-! ### Shape of the valid and tolerance ranges -/

theorem contains_minmax_iff (a b x : ℚ) :
    (Range.make (min a b) (max a b)).contains x = true ↔ min a b ≤ x ∧ x ≤ max a b := by
  rw [Range.contains_iff, min_eq_left min_le_max, max_eq_right min_le_max]

theorem contains_tol_iff (t x : ℚ) :
    (Range.make (t - TARGET_FREQUENCY_TOLERANCE) (t + TARGET_FREQUENCY_TOLERANCE)).contains x
      = true ↔ |x - t| ≤ TARGET_FREQUENCY_TOLERANCE := by
  have h : t - TARGET_FREQUENCY_TOLERANCE ≤ t + TARGET_FREQUENCY_TOLERANCE := by
    unfold TARGET_FREQUENCY_TOLERANCE
    linarith
  rw [Range.contains_iff, min_eq_left h, max_eq_right h, abs_le]
  constructor <;> intro hx <;> constructor <;> linarith [hx.1, hx.2]

theorem Range.make_constrain_mem (a b x : ℚ) (hab : a ≤ b) :
    a ≤ (Range.make a b).constrain x ∧ (Range.make a b).constrain x ≤ b := by
  have h1 : (Range.make a b).low = a := by rw [Range.make_low, min_eq_left hab]
  have h2 : (Range.make a b).high = b := by rw [Range.make_high, max_eq_right hab]
  have h := Range.constrain_mem (Range.make a b) (by rw [h1, h2]; exact hab) x
  rw [h1, h2] at h
  exact h

/-- The clamped frequency always lies in the valid range. -/
theorem constrain_frequency_mem (v : DeepnoteVoice) (x : ℚ) :
    min v.start_frequency v.target_frequency ≤ constrain_frequency v x ∧
    constrain_frequency v x ≤ max v.start_frequency v.target_frequency := by
  unfold constrain_frequency
  exact Range.make_constrain_mem _ _ x min_le_max

/-- The state computed by a transit `process_voice` call is `AT_TARGET`
exactly when the unclamped frequency is within the tolerance of the target or
escapes the valid range; otherwise the call stays in transit. -/
theorem transit_state_iff (v : DeepnoteVoice) (cp1 cp2 : ℚ) :
    transit_state v cp1 cp2 = .AT_TARGET ↔
      |transit_unclamped v cp1 cp2 - v.target_frequency| ≤ TARGET_FREQUENCY_TOLERANCE
      ∨ transit_unclamped v cp1 cp2 < min v.start_frequency v.target_frequency
      ∨ max v.start_frequency v.target_frequency < transit_unclamped v cp1 cp2 := by
  unfold transit_state update_voice_state
  dsimp only
  by_cases hc : min v.start_frequency v.target_frequency ≤ transit_unclamped v cp1 cp2 ∧
      transit_unclamped v cp1 cp2 ≤ max v.start_frequency v.target_frequency
  · rw [if_pos ((contains_minmax_iff _ _ _).2 hc), if_pos rfl]
    by_cases ht : |transit_unclamped v cp1 cp2 - v.target_frequency| ≤ TARGET_FREQUENCY_TOLERANCE
    · rw [if_pos ((contains_tol_iff _ _).2 ht)]
      simp only [ht, true_or, iff_true]
    · rw [if_neg (fun hb => ht ((contains_tol_iff _ _).1 hb))]
      constructor
      · intro h; cases h
      · intro h
        rcases h with h | h | h
        · exact absurd h ht
        · exact absurd hc.1 (not_le.2 h)
        · exact absurd hc.2 (not_le.2 h)
  · rw [if_neg (fun hb => hc ((contains_minmax_iff _ _ _).1 hb)), if_pos rfl]
    rcases not_and_or.1 hc with h | h
    · exact iff_of_true rfl (Or.inr (Or.inl (not_le.1 h)))
    · exact iff_of_true rfl (Or.inr (Or.inr (not_le.1 h)))

/-- A transit call never ends in the pending state. -/
theorem transit_state_of_ne (v : DeepnoteVoice) (cp1 cp2 : ℚ)
    (h : transit_state v cp1 cp2 ≠ .AT_TARGET) :
    transit_state v cp1 cp2 = .IN_TRANSIT_TO_TARGET := by
  unfold transit_state update_voice_state at h ⊢
  dsimp only at h ⊢
  split_ifs at h ⊢ <;> first | rfl | exact absurd rfl h

theorem transit_current_of_at (v : DeepnoteVoice) (cp1 cp2 : ℚ)
    (h : transit_state v cp1 cp2 = .AT_TARGET) :
    transit_current v cp1 cp2 = v.target_frequency := by
  unfold transit_current
  rw [if_pos h]

theorem transit_current_of_not_at (v : DeepnoteVoice) (cp1 cp2 : ℚ)
    (h : transit_state v cp1 cp2 ≠ .AT_TARGET) :
    transit_current v cp1 cp2 = constrain_frequency v (transit_unclamped v cp1 cp2) := by
  unfold transit_current
  rw [if_neg h]

/-! ### Setter and init characterisations -/

theorem set_target_frequency_ok (v : DeepnoteVoice) (f : ℚ) (hf : 0 ≤ f) :
    set_target_frequency v f = .ok { v with
      start_frequency := v.current_frequency
      target_frequency := f
      state := .PENDING_TRANSIT_TO_TARGET } := by
  unfold set_target_frequency
  rw [if_neg (not_lt.2 hf)]

theorem set_start_frequency_ok (v : DeepnoteVoice) (f : ℚ) (hf : 0 ≤ f) :
    set_start_frequency v f = .ok { v with
      start_frequency := f
      current_frequency := f
      state := .PENDING_TRANSIT_TO_TARGET } := by
  unfold set_start_frequency
  rw [if_neg (not_lt.2 hf)]

/-- When every validation passes, `init_voice` builds the fully initialised
voice: start = current = target = the start frequency, pending state, a fresh
LFO at the base frequency, `count` oscillators at the start frequency run
through the detune ladder. -/
theorem init_voice_ok (v : DeepnoteVoice) (n : ℕ) (f0 sr lf d : ℚ)
    (hf0 : 0 ≤ f0) (hsr : 0 < sr) (hlf : 0 ≤ lf) (hn0 : n ≠ 0) (hn16 : n ≤ MAX_OSCILLATORS) :
    init_voice v n f0 sr lf d = .ok (detune_oscillators
      { state := .PENDING_TRANSIT_TO_TARGET
        start_frequency := f0
        target_frequency := f0
        current_frequency := f0
        oscillators := List.replicate n { freq := f0, detune_amount := 0 }
        lfo_base_freq := lf
        lfo := (Lfo.init sr).setFreq lf } d) := by
  unfold init_voice set_start_frequency set_current_frequency set_target_frequency
    init_lfo init_oscillators
  simp only [if_neg (not_lt.2 hf0), if_neg (not_le.2 hsr), if_neg (not_lt.2 hlf),
    if_neg hn0, if_neg (not_lt.2 hn16)]

/-- Whatever arguments `init_voice` succeeds on, the resulting voice has the
start frequency as its start, current and target frequency and is pending. -/
theorem init_voice_ok_fields (v : DeepnoteVoice) (n : ℕ) (f0 sr lf d : ℚ)
    (v' : DeepnoteVoice) (h : init_voice v n f0 sr lf d = .ok v') :
    v'.start_frequency = f0 ∧ v'.target_frequency = f0 ∧ v'.current_frequency = f0 ∧
    v'.state = .PENDING_TRANSIT_TO_TARGET := by
  by_cases hf0 : 0 ≤ f0
  case neg =>
    exfalso
    unfold init_voice set_start_frequency at h
    rw [if_pos (not_le.1 hf0)] at h
    cases h
  by_cases hsr : 0 < sr
  case neg =>
    exfalso
    unfold init_voice set_start_frequency set_current_frequency set_target_frequency
      init_lfo at h
    simp only [if_neg (not_lt.2 hf0), if_pos (not_lt.1 hsr)] at h
    cases h
  by_cases hlf : 0 ≤ lf
  case neg =>
    exfalso
    unfold init_voice set_start_frequency set_current_frequency set_target_frequency
      init_lfo at h
    simp only [if_neg (not_lt.2 hf0), if_neg (not_le.2 hsr), if_pos (not_le.1 hlf)] at h
    cases h
  by_cases hn0 : n = 0
  case pos =>
    exfalso
    unfold init_voice set_start_frequency set_current_frequency set_target_frequency
      init_lfo init_oscillators at h
    simp only [if_neg (not_lt.2 hf0), if_neg (not_le.2 hsr), if_neg (not_lt.2 hlf),
      if_pos hn0] at h
    cases h
  by_cases hn16 : n ≤ MAX_OSCILLATORS
  case neg =>
    exfalso
    unfold init_voice set_start_frequency set_current_frequency set_target_frequency
      init_lfo init_oscillators at h
    simp only [if_neg (not_lt.2 hf0), if_neg (not_le.2 hsr), if_neg (not_lt.2 hlf),
      if_neg hn0, if_pos (not_le.1 hn16)] at h
    cases h
  rw [init_voice_ok v n f0 sr lf d hf0 hsr hlf hn0 hn16] at h
  injection h with h
  subst h
  exact ⟨rfl, rfl, rfl, rfl⟩

/-! ## Concrete voices used by the witnesses and counterexamples -/

/-- A freshly re-targeted voice: pending transit from 0 Hz to 1000 Hz. -/
def voicePending : DeepnoteVoice :=
  { state := .PENDING_TRANSIT_TO_TARGET
    start_frequency := 0
    target_frequency := 1000
    current_frequency := 0
    oscillators := [{ freq := 0, detune_amount := 0 }]
    lfo_base_freq := 1
    lfo := { sampleRate := 5, freq := 1, phase := 0 } }

/-- A voice resting at its 1000 Hz target. -/
def voiceAtTarget : DeepnoteVoice :=
  { state := .AT_TARGET
    start_frequency := 0
    target_frequency := 1000
    current_frequency := 1000
    oscillators := [{ freq := 1000, detune_amount := 0 }]
    lfo_base_freq := 1
    lfo := { sampleRate := 5, freq := 1, phase := 0 } }

/-- A pending voice whose start and target frequency coincide (zero-width
accessible range). -/
def voiceDegenerate : DeepnoteVoice :=
  { state := .PENDING_TRANSIT_TO_TARGET
    start_frequency := 440
    target_frequency := 440
    current_frequency := 440
    oscillators := [{ freq := 440, detune_amount := 0 }]
    lfo_base_freq := 1
    lfo := { sampleRate := 48000, freq := 1, phase := 0 } }

/-! ## Claims -/

/-- **C1.** For every voice that enters a `process_voice` call in
`IN_TRANSIT_TO_TARGET` (or `PENDING_TRANSIT_TO_TARGET`, converted to
`IN_TRANSIT_TO_TARGET` on that same call), with the raw unclamped frequency
computed by shaping and scaling the LFO progress into the start/target span:
if that unclamped frequency falls within the ±1 Hz tolerance of the target
frequency, or falls outside the closed range `[min(start,target),
max(start,target)]`, the call ends with `current_frequency` exactly the
target frequency and state `AT_TARGET`; otherwise it ends with
`current_frequency` equal to the unclamped frequency clamped into the valid
range and state still `IN_TRANSIT_TO_TARGET`. -/
theorem C1_transit_snap_or_clamp (v : DeepnoteVoice) (m cp1 cp2 : ℚ)
    (hm : 0 ≤ m) (hst : v.state ≠ .AT_TARGET) :
    ∃ v', process_voice v m cp1 cp2 = .ok v' ∧
      ((|transit_unclamped v cp1 cp2 - v.target_frequency| ≤ TARGET_FREQUENCY_TOLERANCE ∨
        transit_unclamped v cp1 cp2 < min v.start_frequency v.target_frequency ∨
        max v.start_frequency v.target_frequency < transit_unclamped v cp1 cp2) →
        v'.current_frequency = v.target_frequency ∧ v'.state = .AT_TARGET) ∧
      (¬ (|transit_unclamped v cp1 cp2 - v.target_frequency| ≤ TARGET_FREQUENCY_TOLERANCE ∨
        transit_unclamped v cp1 cp2 < min v.start_frequency v.target_frequency ∨
        max v.start_frequency v.target_frequency < transit_unclamped v cp1 cp2) →
        v'.current_frequency = constrain_frequency v (transit_unclamped v cp1 cp2) ∧
        v'.state = .IN_TRANSIT_TO_TARGET) := by
  refine ⟨_, process_voice_transit v m cp1 cp2 hm hst, ?_, ?_⟩
  · intro h
    have hat : transit_state v cp1 cp2 = .AT_TARGET := (transit_state_iff v cp1 cp2).2 h
    exact ⟨transit_current_of_at v cp1 cp2 hat, hat⟩
  · intro h
    have hne : transit_state v cp1 cp2 ≠ .AT_TARGET := fun hat =>
      h ((transit_state_iff v cp1 cp2).1 hat)
    exact ⟨transit_current_of_not_at v cp1 cp2 hne, transit_state_of_ne v cp1 cp2 hne⟩

/-- Witness for C1 at a concrete input: the pending 0 to 1000 Hz voice, unit
multiplier, both control points 0; the first sample computes unclamped
frequency 0, inside the valid range and outside the target tolerance, so the
voice stays in transit at the clamped frequency. -/
theorem C1_transit_snap_or_clamp_witness :
    (0 : ℚ) ≤ 1 ∧ voicePending.state ≠ .AT_TARGET ∧
    (∃ v', process_voice voicePending 1 0 0 = .ok v' ∧
      ((|transit_unclamped voicePending 0 0 - voicePending.target_frequency| ≤
          TARGET_FREQUENCY_TOLERANCE ∨
        transit_unclamped voicePending 0 0 <
          min voicePending.start_frequency voicePending.target_frequency ∨
        max voicePending.start_frequency voicePending.target_frequency <
          transit_unclamped voicePending 0 0) →
        v'.current_frequency = voicePending.target_frequency ∧ v'.state = .AT_TARGET) ∧
      (¬ (|transit_unclamped voicePending 0 0 - voicePending.target_frequency| ≤
          TARGET_FREQUENCY_TOLERANCE ∨
        transit_unclamped voicePending 0 0 <
          min voicePending.start_frequency voicePending.target_frequency ∨
        max voicePending.start_frequency voicePending.target_frequency <
          transit_unclamped voicePending 0 0) →
        v'.current_frequency =
          constrain_frequency voicePending (transit_unclamped voicePending 0 0) ∧
        v'.state = .IN_TRANSIT_TO_TARGET)) :=
  ⟨by norm_num, by decide,
    C1_transit_snap_or_clamp voicePending 1 0 0 (by norm_num) (by decide)⟩

/-- The accessible-range invariant of C2: the current frequency lies in
`[min(start,target), max(start,target)]`. -/
def in_valid_range (v : DeepnoteVoice) : Prop :=
  min v.start_frequency v.target_frequency ≤ v.current_frequency ∧
  v.current_frequency ≤ max v.start_frequency v.target_frequency

/-- **C2.** After `init_voice` and after every successful call to
`set_target_frequency`, `set_start_frequency` or `process_voice`, the
invariant `current_frequency ∈ [min(start,target), max(start,target)]`
holds: no operation of the public interface leaves the current frequency
outside the accessible range defined by the start and target frequencies. -/
theorem C2_accessible_range_invariant :
    (∀ v n f0 sr lf d v', init_voice v n f0 sr lf d = .ok v' → in_valid_range v') ∧
    (∀ v f v', set_target_frequency v f = .ok v' → in_valid_range v') ∧
    (∀ v f v', set_start_frequency v f = .ok v' → in_valid_range v') ∧
    (∀ v m cp1 cp2 v', process_voice v m cp1 cp2 = .ok v' → in_valid_range v') := by
  refine ⟨?_, ?_, ?_, ?_⟩
  · intro v n f0 sr lf d v' h
    obtain ⟨h1, h2, h3, _⟩ := init_voice_ok_fields v n f0 sr lf d v' h
    unfold in_valid_range
    rw [h1, h2, h3]
    simp
  · intro v f v' h
    unfold set_target_frequency at h
    split_ifs at h
    all_goals cases h
    all_goals unfold in_valid_range
    all_goals exact ⟨min_le_left _ _, le_max_left _ _⟩
  · intro v f v' h
    unfold set_start_frequency at h
    split_ifs at h
    all_goals cases h
    all_goals unfold in_valid_range
    all_goals exact ⟨min_le_left _ _, le_max_left _ _⟩
  · intro v m cp1 cp2 v' h
    by_cases hst : v.state = .AT_TARGET
    · rw [process_voice_at_target v m cp1 cp2 hst] at h
      injection h with h
      subst h
      unfold in_valid_range
      exact ⟨min_le_right _ _, le_max_right _ _⟩
    · by_cases hm : 0 ≤ m
      · rw [process_voice_transit v m cp1 cp2 hm hst] at h
        injection h with h
        subst h
        unfold in_valid_range
        dsimp only
        by_cases hat : transit_state v cp1 cp2 = .AT_TARGET
        · rw [transit_current_of_at v cp1 cp2 hat]
          exact ⟨min_le_right _ _, le_max_right _ _⟩

        · rw [transit_current_of_not_at v cp1 cp2 hat]
          exact constrain_frequency_mem v _
      · rw [process_voice_error_of_neg v m cp1 cp2 (not_le.1 hm) hst] at h
        cases h

/-- The voice produced by retargeting the resting example voice to 5 Hz. -/
def voiceRetargeted : DeepnoteVoice :=
  { voiceAtTarget with
    start_frequency := voiceAtTarget.current_frequency
    target_frequency := 5
    state := .PENDING_TRANSIT_TO_TARGET }

/-- Witness for C2 at a concrete input: retargeting the resting voice keeps
its current frequency inside the new accessible range. -/
theorem C2_accessible_range_invariant_witness : in_valid_range voiceRetargeted :=
  C2_accessible_range_invariant.2.1 voiceAtTarget 5 voiceRetargeted (by rfl)

/-- **C3 (amended).** For every initialized voice, every animation multiplier
`≥ 0` and every pair of Bezier control points, `process_voice` completes and
returns a result without raising any error.  (As stated originally — for
*every* float multiplier — the claim fails: a negative multiplier raises
`std::invalid_argument` inside `process_voice`, through its call to
`scale_lfo_base_freq`; see the counterexample.) -/
theorem C3_process_never_fails_for_nonneg (v : DeepnoteVoice) (m cp1 cp2 : ℚ)
    (hm : 0 ≤ m) : ∃ v', process_voice v m cp1 cp2 = .ok v' := by
  by_cases hst : v.state = .AT_TARGET
  · exact ⟨_, process_voice_at_target v m cp1 cp2 hst⟩
  · exact ⟨_, process_voice_transit v m cp1 cp2 hm hst⟩

/-- Witness for C3 at a concrete input: the pending example voice with unit
multiplier processes without error. -/
theorem C3_process_never_fails_for_nonneg_witness :
    (0 : ℚ) ≤ 1 ∧ ∃ v', process_voice voicePending 1 0 0 = .ok v' :=
  ⟨by norm_num, C3_process_never_fails_for_nonneg voicePending 1 0 0 (by norm_num)⟩

/-- Counterexample to C3 as stated: a `process_voice` call with multiplier
`-1` on a voice in transit raises the negative-multiplier error *inside*
`process_voice` (via `scale_lfo_base_freq`), so `process_voice` is not total
over all float arguments and multiplier errors are not confined to init and
setter calls. -/
theorem C3_counterexample :
    process_voice voicePending (-1) 0 0 =
      .error "Animation multiplier must be non-negative" := by
  rfl

/-- **C5.** In any state, `set_target_frequency f` with `f ≥ 0` captures the
current frequency as the new start frequency, stores `f` as the target and
re-arms `PENDING_TRANSIT_TO_TARGET` immediately (no waiting for an in-flight
transition); with `f < 0` it raises the invalid-argument error, and since the
C++ `throw` precedes every member write, the voice is left unchanged (the
error result carries no modified voice). -/
theorem C5_set_target_frequency_spec (v : DeepnoteVoice) (f : ℚ) :
    (0 ≤ f → set_target_frequency v f = .ok { v with
      start_frequency := v.current_frequency
      target_frequency := f
      state := .PENDING_TRANSIT_TO_TARGET }) ∧
    (f < 0 → set_target_frequency v f =
      .error "Target frequency must be non-negative") := by
  constructor
  · intro hf
    exact set_target_frequency_ok v f hf
  · intro hf
    unfold set_target_frequency
    rw [if_pos hf]

/-- Witness for C5 at concrete inputs: retargeting the resting example voice
to 5 Hz succeeds with the specified field updates, retargeting to -1 Hz
fails. -/
theorem C5_set_target_frequency_spec_witness :
    ((0 : ℚ) ≤ 5 ∧ set_target_frequency voiceAtTarget 5 = .ok { voiceAtTarget with
      start_frequency := voiceAtTarget.current_frequency
      target_frequency := 5
      state := .PENDING_TRANSIT_TO_TARGET }) ∧
    ((-1 : ℚ) < 0 ∧ set_target_frequency voiceAtTarget (-1) =
      .error "Target frequency must be non-negative") :=
  ⟨⟨by norm_num, (C5_set_target_frequency_spec voiceAtTarget 5).1 (by norm_num)⟩,
   ⟨by norm_num, (C5_set_target_frequency_spec voiceAtTarget (-1)).2 (by norm_num)⟩⟩

/-- **C10.** A pending voice whose start and target frequency coincide (the
zero-width degenerate range) reaches `AT_TARGET` with the exact target
frequency on its very first `process_voice` call, for every control-point
pair and every multiplier `≥ 0`: a degenerate transition never lingers in
`IN_TRANSIT_TO_TARGET`. -/
theorem C10_degenerate_transition_one_sample (v : DeepnoteVoice) (m cp1 cp2 : ℚ)
    (hm : 0 ≤ m) (hp : v.state = .PENDING_TRANSIT_TO_TARGET)
    (he : v.start_frequency = v.target_frequency) :
    ∃ v', process_voice v m cp1 cp2 = .ok v' ∧ v'.state = .AT_TARGET ∧
      v'.current_frequency = v.target_frequency := by
  have hst : v.state ≠ .AT_TARGET := by
    rw [hp]
    intro h
    cases h
  have hw : transit_unclamped v cp1 cp2 = v.target_frequency := by
    unfold transit_unclamped
    rw [shaped_scaled_eq, he]
    ring
  have hat : transit_state v cp1 cp2 = .AT_TARGET := by
    refine (transit_state_iff v cp1 cp2).2 (Or.inl ?_)
    rw [hw]
    simp [TARGET_FREQUENCY_TOLERANCE]
  exact ⟨_, process_voice_transit v m cp1 cp2 hm hst, hat,
    transit_current_of_at v cp1 cp2 hat⟩

/-- Witness for C10 at a concrete input: the degenerate 440 Hz to 440 Hz
pending voice completes its transition on the first sample. -/
theorem C10_degenerate_transition_one_sample_witness :
    (0 : ℚ) ≤ 1 ∧ voiceDegenerate.state = .PENDING_TRANSIT_TO_TARGET ∧
    voiceDegenerate.start_frequency = voiceDegenerate.target_frequency ∧
    (∃ v', process_voice voiceDegenerate 1 (8/100) (1/2) = .ok v' ∧
      v'.state = .AT_TARGET ∧
      v'.current_frequency = voiceDegenerate.target_frequency) :=
  ⟨by norm_num, by decide, by decide,
    C10_degenerate_transition_one_sample voiceDegenerate 1 (8/100) (1/2)
      (by norm_num) (by decide) (by decide)⟩

/-- `Range::contains` through the IEEE model agrees with the rational model
on finite values (bounds already ordered). -/
theorem containsF_fin (a b x : ℚ) (hab : a ≤ b) :
    containsF a b (.fin x) = (Range.make a b).contains x := by
  unfold containsF FVal.fle Range.contains
  rw [Range.make_low, Range.make_high, min_eq_left hab, max_eq_right hab]

/-- `Range::constrain` through the IEEE model agrees with the rational model
on finite values (bounds already ordered). -/
theorem constrainF_fin (a b x : ℚ) (hab : a ≤ b) :
    constrainF a b (.fin x) = .fin ((Range.make a b).constrain x) := by
  have h1 : (Range.make a b).low = a := by rw [Range.make_low, min_eq_left hab]
  have h2 : (Range.make a b).high = b := by rw [Range.make_high, max_eq_right hab]
  unfold constrainF FVal.flt Range.constrain
  rw [h1, h2]
  by_cases ha : x < a
  · rw [if_pos (by simpa using ha), if_pos ha]
  · rw [if_neg (by simpa using ha), if_neg ha]
    by_cases hb : b < x
    · rw [if_pos (by simpa using hb), if_pos (by simpa using hb)]
    · rw [if_neg (by simpa using hb), if_neg (by simpa using hb)]

/-- On finite values, the IEEE model of the transit frequency/state update
agrees with the exact rational model used by `process_voice`: the `FVal`
semantics is a conservative extension. -/
theorem transit_stepF_fin_agrees (v : DeepnoteVoice) (cp1 cp2 : ℚ) :
    transit_stepF v.start_frequency v.target_frequency
        (.fin (transit_unclamped v cp1 cp2)) =
      (.fin (transit_current v cp1 cp2), transit_state v cp1 cp2) := by
  have htol : v.target_frequency - TARGET_FREQUENCY_TOLERANCE ≤
      v.target_frequency + TARGET_FREQUENCY_TOLERANCE := by
    unfold TARGET_FREQUENCY_TOLERANCE
    linarith
  unfold transit_stepF transit_current transit_state constrain_frequency
    update_voice_stateF update_voice_state
  dsimp only
  rw [containsF_fin _ _ _ min_le_max, containsF_fin _ _ _ htol,
    constrainF_fin _ _ _ min_le_max]
  split_ifs <;> rfl

/-- **C4.** For finite start and target frequencies, the frequency stored by
a `process_voice` call is always finite and inside
`[min(start,target), max(start,target)]`, for *every* possible unclamped
shaped frequency — NaN and ±infinity included.  Every choice of Bezier
control points (NaN/infinite ones included) produces some IEEE value as the
unclamped frequency, so non-finite control points never propagate into
`current_frequency`: a NaN or infinite unclamped value fails the range
containment test, which snaps the state to `AT_TARGET` and the frequency to
the exact (finite) target.  A voice already at target stores the finite
target frequency directly. -/
theorem C4_nonfinite_never_propagates :
    (∀ s t : ℚ, ∀ w : FVal,
      (transit_stepF s t w).1.isFinite = true ∧
      ∃ q : ℚ, (transit_stepF s t w).1 = .fin q ∧ min s t ≤ q ∧ q ≤ max s t) ∧
    (∀ v m cp1 cp2, v.state = .AT_TARGET →
      ∃ v', process_voice v m cp1 cp2 = .ok v' ∧
        v'.current_frequency = v.target_frequency) := by
  constructor
  · intro s t w
    suffices h : ∃ q : ℚ, (transit_stepF s t w).1 = .fin q ∧ min s t ≤ q ∧ q ≤ max s t by
      obtain ⟨q, hq, h1, h2⟩ := h
      refine ⟨by rw [hq]; rfl, q, hq, h1, h2⟩
    unfold transit_stepF update_voice_stateF containsF constrainF
    cases w with
    | nan =>
      exact ⟨t, by simp [FVal.fle], min_le_right s t, le_max_right s t⟩
    | inf =>
      exact ⟨t, by simp [FVal.fle], min_le_right s t, le_max_right s t⟩
    | ninf =>
      exact ⟨t, by simp [FVal.fle], min_le_right s t, le_max_right s t⟩
    | fin q =>
      by_cases hq : min s t ≤ q ∧ q ≤ max s t
      · by_cases ht2 : t - TARGET_FREQUENCY_TOLERANCE ≤ q ∧ q ≤ t + TARGET_FREQUENCY_TOLERANCE
        · refine ⟨t, ?_, min_le_right s t, le_max_right s t⟩
          simp only [FVal.fle, FVal.flt, Bool.and_eq_true, decide_eq_true_eq, if_true]
          rw [if_pos hq, if_pos ht2, if_pos rfl]
        · refine ⟨q, ?_, hq.1, hq.2⟩
          simp only [FVal.fle, FVal.flt, Bool.and_eq_true, decide_eq_true_eq, if_true]
          rw [if_pos hq, if_neg ht2,
            if_neg (show ¬ (State.IN_TRANSIT_TO_TARGET = State.AT_TARGET) by intro h; cases h),
            if_neg (not_lt.2 hq.1), if_neg (not_lt.2 hq.2)]
      · refine ⟨t, ?_, min_le_right s t, le_max_right s t⟩
        simp only [FVal.fle, FVal.flt, Bool.and_eq_true, decide_eq_true_eq, if_true]
        rw [if_neg hq, if_pos rfl]
  · intro v m cp1 cp2 hst
    exact ⟨_, process_voice_at_target v m cp1 cp2 hst, rfl⟩

/-- Witness for C4 at concrete inputs: a NaN unclamped frequency on the
0 to 1000 Hz span yields the finite target 1000 Hz, and a `process_voice`
call on the resting example voice keeps the finite target. -/
theorem C4_nonfinite_never_propagates_witness :
    ((transit_stepF 0 1000 .nan).1.isFinite = true ∧
      ∃ q : ℚ, (transit_stepF 0 1000 .nan).1 = .fin q ∧
        min (0:ℚ) 1000 ≤ q ∧ q ≤ max (0:ℚ) 1000) ∧
    (voiceAtTarget.state = .AT_TARGET ∧
      ∃ v', process_voice voiceAtTarget 1 0 0 = .ok v' ∧
        v'.current_frequency = voiceAtTarget.target_frequency) :=
  ⟨C4_nonfinite_never_propagates.1 0 1000 .nan,
   ⟨by decide, C4_nonfinite_never_propagates.2 voiceAtTarget 1 0 0 (by decide)⟩⟩

/-! ## C7: the Scaler on a zero-width input range -/

/-- Division of a finite IEEE value by the finite zero is never finite
(NaN for `0 / 0`, a signed infinity otherwise). -/
theorem FVal.div_fin_zero_not_finite (a : ℚ) :
    ((FVal.fin a).div (.fin 0)).isFinite = false := by
  unfold FVal.div FVal.isFinite
  dsimp only
  rw [if_pos rfl]
  split_ifs <;> rfl

/-- A non-finite IEEE value stays non-finite through the Scaler's
multiply-then-offset tail (`* output.length() + output.low`). -/
theorem FVal.mul_add_fin_not_finite (w : FVal) (hw : w.isFinite = false) (L c : ℚ) :
    ((w.mul (.fin L)).add (.fin c)).isFinite = false := by
  cases w with
  | fin q => simp [FVal.isFinite] at hw
  | nan => rfl
  | inf =>
    unfold FVal.mul FVal.add FVal.isFinite
    dsimp only
    split_ifs <;> rfl
  | ninf =>
    unfold FVal.mul FVal.add FVal.isFinite
    dsimp only
    split_ifs <;> rfl

/-- Counterexample to C7 as stated: for the zero-width input range `[2, 2]`
and output range `[0, 10]`, `scale(5)` divides by zero and evaluates (under
IEEE semantics) to `+infinity`, not to `output.low = 0`: the zero-width case
is not guarded in the source. -/
theorem C7_counterexample :
    (Range.make 2 2).length = 0 ∧
    scaleF (Range.make 2 2) (Range.make 0 10) (.fin 5) = .inf ∧
    scaleF (Range.make 2 2) (Range.make 0 10) (.fin 5) ≠
      .fin ((Range.make 0 10).low) := by
  have h22 : Range.make 2 2 = { low := 2, high := 2 } := by
    unfold Range.make
    norm_num
  have h010 : Range.make 0 10 = { low := 0, high := 10 } := by
    unfold Range.make
    norm_num
  have hs : scaleF (Range.make 2 2) (Range.make 0 10) (.fin 5) = .inf := by
    rw [h22, h010]
    unfold scaleF Range.length
    dsimp only
    norm_num [FVal.sub, FVal.div, FVal.mul, FVal.add]
  refine ⟨by rw [h22]; unfold Range.length; norm_num, hs, by rw [hs, h010]; intro h; cases h⟩

/-- **C7 (amended).** For every Scaler whose input range has length zero and
every finite input value, `scale(v)` performs an unguarded division by zero:
under IEEE semantics the result is always non-finite (NaN when the value
equals the degenerate bound or the output range also has zero length, a
signed infinity otherwise) — in particular it is never `output.low`.  The
guard described by the claim does not exist in the source. -/
theorem C7_zero_width_scaler_not_guarded (a outLo outHi x : ℚ) :
    (scaleF (Range.make a a) (Range.make outLo outHi) (.fin x)).isFinite = false := by
  have hin : Range.make a a = { low := a, high := a } := by
    unfold Range.make
    rw [if_neg (lt_irrefl a)]
  unfold scaleF
  rw [hin]
  dsimp only [Range.length]
  have hsub : (FVal.fin x).sub (.fin a) = .fin (x - a) := rfl
  rw [hsub, sub_self]
  exact FVal.mul_add_fin_not_finite _ (FVal.div_fin_zero_not_finite (x - a)) _ _

/-! ## C8: the symmetric detune ladder -/

/-- For the counts the voice admits (at most 16 oscillators), the
`size_t`-wrap-then-`int8_t`-narrow dance of
`const int8_t idx = i - half + ((i >= half) ? 1 : 0);` computes the plain
integer `i - half + (i >= half ? 1 : 0)`. -/
theorem detuneIdx_eq (count i : ℕ) (hc : count ≤ 16) (hi2 : i < count) :
    detuneIdx count i =
      (i : ℤ) - (count / 2 : ℕ) + (if count / 2 ≤ i then 1 else 0) := by
  unfold detuneIdx toInt8 wrap64
  dsimp only
  have h64 : (2:ℤ)^64 = 18446744073709551616 := by norm_num
  have h8 : (2:ℤ)^8 = 256 := by norm_num
  have h7 : (2:ℤ)^7 = 128 := by norm_num
  rw [h64, h8, h7]
  have hhalf : (count / 2 : ℕ) ≤ 8 := by omega
  split_ifs <;> omega

/-- The detune amounts after `detune_oscillators`, as a function of the
oscillator index. -/
theorem detune_amounts_eq (v : DeepnoteVoice) (d : ℚ) :
    ((detune_oscillators v d).oscillators.map fun o => o.detune_amount) =
      (List.range v.oscillators.length).map (fun i =>
        if v.oscillators.length ≤ 1 then 0
        else (detuneIdx v.oscillators.length i : ℚ) * d) := by
  unfold detune_oscillators
  dsimp only
  apply List.ext_getElem
  · simp [List.length_mapIdx]
  · intro i h1 h2
    simp only [List.getElem_map, List.getElem_range]
    have hlen : i < v.oscillators.length := by
      simpa [List.length_mapIdx] using (by simpa using h1 : i < _)
    have hmi := List.get_mapIdx v.oscillators
      (fun i o =>
        if v.oscillators.length ≤ 1 then { o with detune_amount := 0 }
        else { o with detune_amount := (detuneIdx v.oscillators.length i : ℚ) * d })
      i hlen
    rw [List.get_eq_getElem, List.get_eq_getElem] at hmi
    rw [hmi]
    split_ifs <;> rfl

/-- **C8.** After `detune_oscillators(detune_hz)`: a single oscillator gets
detune offset exactly 0; for `N = 2k` oscillators the multiset of computed
offsets is exactly `{-k, ..., -1, 1, ..., k} * detune_hz`, and no oscillator
sits at an offset index of exactly 0. -/
theorem C8_detune_ladder_symmetry (v : DeepnoteVoice) (d : ℚ) :
    (v.oscillators.length = 1 →
      ((detune_oscillators v d).oscillators.map fun o => o.detune_amount) = [0]) ∧
    (∀ k : ℕ, 1 ≤ k → k ≤ 8 → v.oscillators.length = 2 * k →
      (((detune_oscillators v d).oscillators.map fun o => o.detune_amount : List ℚ) :
          Multiset ℚ) =
        Multiset.map (fun z : ℤ => (z : ℚ) * d) ((Finset.Icc (-(k:ℤ)) k).erase 0).val) ∧
    (∀ k : ℕ, 1 ≤ k → k ≤ 8 → v.oscillators.length = 2 * k →
      ∀ i, i < 2 * k → detuneIdx (2 * k) i ≠ 0) := by
  refine ⟨?_, ?_, ?_⟩
  · intro h1
    rw [detune_amounts_eq, h1]
    simp
  · intro k hk1 hk8 hlen
    rw [detune_amounts_eq, hlen]
    have hne : ¬ (2 * k ≤ 1) := by omega
    simp only [if_neg hne]
    have hfac : (List.range (2 * k)).map (fun i => (detuneIdx (2 * k) i : ℚ) * d) =
        ((List.range (2 * k)).map fun i => detuneIdx (2 * k) i).map
          (fun z : ℤ => (z : ℚ) * d) := by
      rw [List.map_map]
      rfl
    have hmul : ((List.range (2 * k)).map fun i => detuneIdx (2 * k) i : Multiset ℤ) =
        ((Finset.Icc (-(k:ℤ)) k).erase 0).val := by
      interval_cases k <;> decide
    rw [hfac, ← Multiset.map_coe, hmul]
  · intro k hk1 hk8 hlen i hi
    rw [detuneIdx_eq (2 * k) i (by omega) hi]
    have h2 : (2 * k) / 2 = k := by omega
    rw [h2]
    split_ifs <;> omega

/-- A voice with four oscillators used by the C8 witness. -/
def voiceFourOsc : DeepnoteVoice :=
  { state := .AT_TARGET
    start_frequency := 440
    target_frequency := 440
    current_frequency := 440
    oscillators := List.replicate 4 { freq := 440, detune_amount := 0 }
    lfo_base_freq := 1
    lfo := { sampleRate := 48000, freq := 1, phase := 0 } }

/-- Witness for C8 at a concrete input: four oscillators detuned by 5/2 Hz
carry the offsets `{-5, -5/2, 5/2, 5}` (the `k = 2` ladder). -/
theorem C8_detune_ladder_symmetry_witness :
    (1 ≤ 2 ∧ 2 ≤ 8 ∧ voiceFourOsc.oscillators.length = 2 * 2) ∧
    (((detune_oscillators voiceFourOsc (5/2)).oscillators.map
        fun o => o.detune_amount : List ℚ) : Multiset ℚ) =
      Multiset.map (fun z : ℤ => (z : ℚ) * (5/2)) ((Finset.Icc (-(2:ℤ)) 2).erase 0).val :=
  ⟨⟨by norm_num, by norm_num, by decide⟩,
    (C8_detune_ladder_symmetry voiceFourOsc (5/2)).2.1 2 (by norm_num) (by norm_num)
      (by decide)⟩

/-! ## C9: direction correctness across a transition -/

theorem in_transit_ne_at : (State.IN_TRANSIT_TO_TARGET = State.AT_TARGET) = False := by
  simp

theorem in_transit_ne_pending :
    (State.IN_TRANSIT_TO_TARGET = State.PENDING_TRANSIT_TO_TARGET) = False := by
  simp

theorem at_ne_pending :
    (State.AT_TARGET = State.PENDING_TRANSIT_TO_TARGET) = False := by
  simp

/-- The voice after one `process_voice` sample of `voicePending` with
multiplier 1 and overshooting control points `(2, -1)`. -/
def voiceOvershoot1 : DeepnoteVoice :=
  { state := .IN_TRANSIT_TO_TARGET
    start_frequency := 0
    target_frequency := 1000
    current_frequency := 0
    oscillators := [{ freq := 0, detune_amount := 0 }]
    lfo_base_freq := 1
    lfo := { sampleRate := 5, freq := 1, phase := 1/5 } }

/-- The voice after the second such sample: the Bezier overshoot has pushed
the frequency up to 680 Hz. -/
def voiceOvershoot2 : DeepnoteVoice :=
  { state := .IN_TRANSIT_TO_TARGET
    start_frequency := 0
    target_frequency := 1000
    current_frequency := 680
    oscillators := [{ freq := 680, detune_amount := 0 }]
    lfo_base_freq := 1
    lfo := { sampleRate := 5, freq := 1, phase := 2/5 } }

/-- The voice after the third such sample: the frequency has *fallen back*
to 640 Hz although the transition still runs upwards. -/
def voiceOvershoot3 : DeepnoteVoice :=
  { state := .IN_TRANSIT_TO_TARGET
    start_frequency := 0
    target_frequency := 1000
    current_frequency := 640
    oscillators := [{ freq := 640, detune_amount := 0 }]
    lfo_base_freq := 1
    lfo := { sampleRate := 5, freq := 1, phase := 3/5 } }

/-- Counterexample to C9 as stated: with the same multiplier 1 and the same
(overshoot-capable, outside `[0,1]`) control points `(2, -1)` supplied each
sample, the transition of `voicePending` (target 1000 > start 0) produces
the current-frequency sequence 0, 680, 640 while staying
`IN_TRANSIT_TO_TARGET`: the third sample is *smaller* than the second, so
the sequence is not non-decreasing. -/
theorem C9_counterexample :
    process_voice voicePending 1 2 (-1) = .ok voiceOvershoot1 ∧
    process_voice voiceOvershoot1 1 2 (-1) = .ok voiceOvershoot2 ∧
    process_voice voiceOvershoot2 1 2 (-1) = .ok voiceOvershoot3 ∧
    voicePending.start_frequency < voicePending.target_frequency ∧
    voiceOvershoot3.state = .IN_TRANSIT_TO_TARGET ∧
    voiceOvershoot3.current_frequency < voiceOvershoot2.current_frequency := by
  refine ⟨?_, ?_, ?_, by norm_num [voicePending], by decide,
    by norm_num [voiceOvershoot2, voiceOvershoot3]⟩ <;>
  · norm_num [in_transit_ne_at, in_transit_ne_pending, at_ne_pending, process_voice,
      calculate_shaped_frequency,
      scale_lfo_base_freq, process_lfo, shaped_scaled, Scaler.apply, Scaler.normalize,
      BezierUnitShaper.make, BezierUnitShaper.apply, Range.make, Range.length,
      update_voice_state, Range.contains, constrain_frequency, Range.constrain,
      set_current_frequency, process_oscillators, Lfo.out, Lfo.advance, Lfo.setFreq,
      Lfo.reset, DEFAULT_LFO_AMPLITUDE, TARGET_FREQUENCY_TOLERANCE, voicePending,
      voiceOvershoot1, voiceOvershoot2, voiceOvershoot3]

/-- With both control points inside `[0, 1]`, the Bezier shaper is monotone
non-decreasing on `[0, 1]`.  The divided difference
`(B(t2) - B(t1)) / (t2 - t1)` is a function of `P = t1 + t2` and
`S = t1² + t1·t2 + t2²` that is affine in each control point, so its minimum
over the control-point box is attained at one of the four corners, each of
which is a sum of squares. -/
theorem bezier_monotone_on_unit (y2 y3 t1 t2 : ℚ)
    (hy2a : 0 ≤ y2) (hy2b : y2 ≤ 1) (hy3a : 0 ≤ y3) (hy3b : y3 ≤ 1)
    (ht0 : 0 ≤ t1) (ht : t1 ≤ t2) (ht1 : t2 ≤ 1) :
    (BezierUnitShaper.make y2 y3).apply t1 ≤ (BezierUnitShaper.make y2 y3).apply t2 := by
  have ht2a : 0 ≤ t2 := le_trans ht0 ht
  have ht1b : t1 ≤ 1 := le_trans ht ht1
  have hS : 0 ≤ t1 * t1 + t1 * t2 + t2 * t2 := by
    nlinarith [sq_nonneg (t1 + t2), sq_nonneg t1, sq_nonneg t2]
  have hc01 : 0 ≤ 3 * (t1 + t2) - 2 * (t1 * t1 + t1 * t2 + t2 * t2) := by
    nlinarith [mul_nonneg ht0 (sub_nonneg.2 ht1b), mul_nonneg ht2a (sub_nonneg.2 ht1),
      mul_nonneg ht0 (sub_nonneg.2 ht1), mul_nonneg ht2a (sub_nonneg.2 ht1b)]
  have hc10 : 0 ≤ 3 - 6 * (t1 + t2) + 4 * (t1 * t1 + t1 * t2 + t2 * t2) := by
    nlinarith [sq_nonneg (1 - t1 - t2), sq_nonneg (t2 - t1)]
  have hc11 : 0 ≤ 3 - 3 * (t1 + t2) + (t1 * t1 + t1 * t2 + t2 * t2) := by
    nlinarith [sq_nonneg ((1 - t1) + (1 - t2)), sq_nonneg (1 - t1), sq_nonneg (1 - t2)]
  have key : 0 ≤
      y2 * (3 - 6 * (t1 + t2) + 3 * (t1 * t1 + t1 * t2 + t2 * t2)) +
      y3 * (3 * (t1 + t2) - 3 * (t1 * t1 + t1 * t2 + t2 * t2)) +
      (t1 * t1 + t1 * t2 + t2 * t2) := by
    rcases le_or_lt 0 (3 - 6 * (t1 + t2) + 3 * (t1 * t1 + t1 * t2 + t2 * t2)) with hA | hA <;>
      rcases le_or_lt 0 (3 * (t1 + t2) - 3 * (t1 * t1 + t1 * t2 + t2 * t2)) with hB | hB
    · nlinarith [mul_nonneg hy2a hA, mul_nonneg hy3a hB]
    · nlinarith [mul_nonneg hy2a hA,
        mul_nonneg (sub_nonneg.2 hy3b)
          (by linarith : (0:ℚ) ≤ 3 * (t1 * t1 + t1 * t2 + t2 * t2) - 3 * (t1 + t2))]
    · nlinarith [mul_nonneg hy3a hB,
        mul_nonneg (sub_nonneg.2 hy2b)
          (by linarith : (0:ℚ) ≤ 6 * (t1 + t2) - 3 - 3 * (t1 * t1 + t1 * t2 + t2 * t2))]
    · nlinarith [mul_nonneg (sub_nonneg.2 hy2b)
          (by linarith : (0:ℚ) ≤ 6 * (t1 + t2) - 3 - 3 * (t1 * t1 + t1 * t2 + t2 * t2)),
        mul_nonneg (sub_nonneg.2 hy3b)
          (by linarith : (0:ℚ) ≤ 3 * (t1 * t1 + t1 * t2 + t2 * t2) - 3 * (t1 + t2))]
  have hdiff : (BezierUnitShaper.make y2 y3).apply t2 -
      (BezierUnitShaper.make y2 y3).apply t1 =
      (t2 - t1) *
        (y2 * (3 - 6 * (t1 + t2) + 3 * (t1 * t1 + t1 * t2 + t2 * t2)) +
         y3 * (3 * (t1 + t2) - 3 * (t1 * t1 + t1 * t2 + t2 * t2)) +
         (t1 * t1 + t1 * t2 + t2 * t2)) := by
    unfold BezierUnitShaper.make BezierUnitShaper.apply
    dsimp only
    ring
  have hmul := mul_nonneg (sub_nonneg.2 ht) key
  linarith [hdiff, hmul]

theorem constrain_frequency_mono (v : DeepnoteVoice) (x y : ℚ) (h : x ≤ y) :
    constrain_frequency v x ≤ constrain_frequency v y := by
  unfold constrain_frequency
  apply Range.constrain_mono
  · rw [Range.make_low, Range.make_high, min_eq_left min_le_max, max_eq_right min_le_max]
    exact min_le_max
  · exact h

/-- **C9 (amended).** Within a transition, with the same multiplier and the
same control points each sample, the per-sample current frequency moves
monotonically in the direction of the target — non-decreasing when
`target > start`, non-increasing when `target < start` — *provided* the
control points lie in `[0, 1]` (the non-overshooting range) and the two
samples fall inside the first ramp cycle of the animation LFO (no phase
wrap).  As frozen, without those two provisos, the claim is false: see the
counterexample with overshoot control points `(2, -1)`. -/
theorem C9_direction_monotone_within_ramp (v : DeepnoteVoice) (m cp1 cp2 : ℚ)
    (hst : v.state = .IN_TRANSIT_TO_TARGET)
    (hc1a : 0 ≤ cp1) (hc1b : cp1 ≤ 1) (hc2a : 0 ≤ cp2) (hc2b : cp2 ≤ 1)
    (hm : 0 ≤ m) (hbase : 0 ≤ v.lfo_base_freq) (hsr : 0 < v.lfo.sampleRate)
    (hp0 : 0 ≤ v.lfo.phase)
    (hnw : v.lfo.phase + v.lfo_base_freq * m / v.lfo.sampleRate ≤ 1) :
    ∀ v1 v2 : DeepnoteVoice,
      process_voice v m cp1 cp2 = .ok v1 →
      process_voice v1 m cp1 cp2 = .ok v2 →
      (v.start_frequency < v.target_frequency →
        v1.current_frequency ≤ v2.current_frequency) ∧
      (v.target_frequency < v.start_frequency →
        v2.current_frequency ≤ v1.current_frequency) := by
  intro v1 v2 h1 h2
  have hstne : v.state ≠ .AT_TARGET := by rw [hst]; intro h; cases h
  have hpend : ¬ v.state = .PENDING_TRANSIT_TO_TARGET := by rw [hst]; intro h; cases h
  rw [process_voice_transit v m cp1 cp2 hm hstne] at h1
  injection h1 with h1
  have hstart1 : v1.start_frequency = v.start_frequency := by rw [← h1]
  have htarget1 : v1.target_frequency = v.target_frequency := by rw [← h1]
  have hstate1 : v1.state = transit_state v cp1 cp2 := by rw [← h1]
  have hcur1 : v1.current_frequency = transit_current v cp1 cp2 := by rw [← h1]
  have hphase1 : v1.lfo.phase =
      v.lfo.phase + v.lfo_base_freq * m / v.lfo.sampleRate := by
    rw [← h1]
    show (transit_lfo v m).phase = _
    unfold transit_lfo Lfo.setFreq Lfo.advance transit_progress
    dsimp only
    rw [if_neg hpend, if_neg (not_lt.2 hnw)]
  by_cases hat1 : transit_state v cp1 cp2 = .AT_TARGET
  · have hs1 : v1.state = .AT_TARGET := by rw [hstate1, hat1]
    rw [process_voice_at_target v1 m cp1 cp2 hs1] at h2
    injection h2 with h2
    have hcur2 : v2.current_frequency = v1.target_frequency := by rw [← h2]
    have e1 : v1.current_frequency = v.target_frequency := by
      rw [hcur1, transit_current_of_at v cp1 cp2 hat1]
    have e2 : v2.current_frequency = v.target_frequency := by rw [hcur2, htarget1]
    constructor <;> intro _ <;> rw [e1, e2]
  · have hin1 : transit_state v cp1 cp2 = .IN_TRANSIT_TO_TARGET :=
      transit_state_of_ne v cp1 cp2 hat1
    have hs1ne : v1.state ≠ .AT_TARGET := by rw [hstate1, hin1]; intro h; cases h
    have hs1pend : ¬ v1.state = .PENDING_TRANSIT_TO_TARGET := by
      rw [hstate1, hin1]; intro h; cases h
    rw [process_voice_transit v1 m cp1 cp2 hm hs1ne] at h2
    injection h2 with h2
    have hcur2 : v2.current_frequency = transit_current v1 cp1 cp2 := by rw [← h2]
    have hB := bezier_monotone_on_unit cp1 cp2 v.lfo.phase
      (v.lfo.phase + v.lfo_base_freq * m / v.lfo.sampleRate) hc1a hc1b hc2a hc2b hp0
      (by
        have hinc : 0 ≤ v.lfo_base_freq * m / v.lfo.sampleRate :=
          div_nonneg (mul_nonneg hbase hm) hsr.le
        linarith) hnw
    have hw1 : transit_unclamped v cp1 cp2 = v.start_frequency +
        (BezierUnitShaper.make cp1 cp2).apply v.lfo.phase *
        (v.target_frequency - v.start_frequency) := by
      unfold transit_unclamped transit_progress
      rw [if_neg hpend, shaped_scaled_eq]
    have hw2 : transit_unclamped v1 cp1 cp2 = v.start_frequency +
        (BezierUnitShaper.make cp1 cp2).apply
          (v.lfo.phase + v.lfo_base_freq * m / v.lfo.sampleRate) *
        (v.target_frequency - v.start_frequency) := by
      unfold transit_unclamped transit_progress
      rw [if_neg hs1pend, hstart1, htarget1, hphase1, shaped_scaled_eq]
    have hcf1 : v1.current_frequency =
        constrain_frequency v (transit_unclamped v cp1 cp2) := by
      rw [hcur1, transit_current_of_not_at v cp1 cp2 hat1]
    have hcfv1 : ∀ x : ℚ, constrain_frequency v1 x = constrain_frequency v x := by
      intro x
      unfold constrain_frequency
      rw [hstart1, htarget1]
    constructor
    · intro hdir
      have hwle : transit_unclamped v cp1 cp2 ≤ transit_unclamped v1 cp1 cp2 := by
        rw [hw1, hw2]
        have hmm := mul_le_mul_of_nonneg_right hB
          (by linarith : (0:ℚ) ≤ v.target_frequency - v.start_frequency)
        linarith
      by_cases hat2 : transit_state v1 cp1 cp2 = .AT_TARGET
      · have h2c : v2.current_frequency = v.target_frequency := by
          rw [hcur2, transit_current_of_at v1 cp1 cp2 hat2, htarget1]
        rw [h2c, hcf1]
        have hmem := constrain_frequency_mem v (transit_unclamped v cp1 cp2)
        calc constrain_frequency v (transit_unclamped v cp1 cp2)
            ≤ max v.start_frequency v.target_frequency := hmem.2
          _ = v.target_frequency := max_eq_right hdir.le
      · rw [hcf1, hcur2, transit_current_of_not_at v1 cp1 cp2 hat2, hcfv1]
        exact constrain_frequency_mono v _ _ hwle
    · intro hdir
      have hwle : transit_unclamped v1 cp1 cp2 ≤ transit_unclamped v cp1 cp2 := by
        rw [hw1, hw2]
        have hmm := mul_le_mul_of_nonpos_right hB
          (by linarith : v.target_frequency - v.start_frequency ≤ 0)
        linarith
      by_cases hat2 : transit_state v1 cp1 cp2 = .AT_TARGET
      · have h2c : v2.current_frequency = v.target_frequency := by
          rw [hcur2, transit_current_of_at v1 cp1 cp2 hat2, htarget1]
        rw [h2c, hcf1]
        have hmem := constrain_frequency_mem v (transit_unclamped v cp1 cp2)
        calc v.target_frequency
            = min v.start_frequency v.target_frequency := (min_eq_right hdir.le).symm
          _ ≤ constrain_frequency v (transit_unclamped v cp1 cp2) := hmem.1
      · rw [hcf1, hcur2, transit_current_of_not_at v1 cp1 cp2 hat2, hcfv1]
        exact constrain_frequency_mono v _ _ hwle

/-- The voice after one sample of `voiceOvershoot1` with the in-range control
points `(1/2, 1/2)`. -/
def voiceRamp1 : DeepnoteVoice :=
  { state := .IN_TRANSIT_TO_TARGET
    start_frequency := 0
    target_frequency := 1000
    current_frequency := 248
    oscillators := [{ freq := 248, detune_amount := 0 }]
    lfo_base_freq := 1
    lfo := { sampleRate := 5, freq := 1, phase := 2/5 } }

/-- The voice after the next such sample: the frequency keeps rising. -/
def voiceRamp2 : DeepnoteVoice :=
  { state := .IN_TRANSIT_TO_TARGET
    start_frequency := 0
    target_frequency := 1000
    current_frequency := 424
    oscillators := [{ freq := 424, detune_amount := 0 }]
    lfo_base_freq := 1
    lfo := { sampleRate := 5, freq := 1, phase := 3/5 } }

/-- Witness for the amended C9 at a concrete input: for the in-transit voice
with phase 1/5, multiplier 1 and control points `(1/2, 1/2)` (inside
`[0,1]`, no ramp wrap), two successive `process_voice` samples give 248 Hz
then 424 Hz — non-decreasing, as the amended claim states. -/
theorem C9_direction_monotone_within_ramp_witness :
    voiceOvershoot1.state = .IN_TRANSIT_TO_TARGET ∧
    voiceOvershoot1.lfo.phase +
      voiceOvershoot1.lfo_base_freq * 1 / voiceOvershoot1.lfo.sampleRate ≤ 1 ∧
    process_voice voiceOvershoot1 1 (1/2) (1/2) = .ok voiceRamp1 ∧
    process_voice voiceRamp1 1 (1/2) (1/2) = .ok voiceRamp2 ∧
    ((voiceOvershoot1.start_frequency < voiceOvershoot1.target_frequency →
        voiceRamp1.current_frequency ≤ voiceRamp2.current_frequency) ∧
      (voiceOvershoot1.target_frequency < voiceOvershoot1.start_frequency →
        voiceRamp2.current_frequency ≤ voiceRamp1.current_frequency)) := by
  have hrun1 : process_voice voiceOvershoot1 1 (1/2) (1/2) = .ok voiceRamp1 := by
    norm_num [in_transit_ne_at, in_transit_ne_pending, at_ne_pending, process_voice,
      calculate_shaped_frequency, scale_lfo_base_freq, process_lfo, shaped_scaled,
      Scaler.apply, Scaler.normalize, BezierUnitShaper.make, BezierUnitShaper.apply,
      Range.make, Range.length, update_voice_state, Range.contains, constrain_frequency,
      Range.constrain, set_current_frequency, process_oscillators, Lfo.out, Lfo.advance,
      Lfo.setFreq, Lfo.reset, DEFAULT_LFO_AMPLITUDE, TARGET_FREQUENCY_TOLERANCE,
      voiceOvershoot1, voiceRamp1]
  have hrun2 : process_voice voiceRamp1 1 (1/2) (1/2) = .ok voiceRamp2 := by
    norm_num [in_transit_ne_at, in_transit_ne_pending, at_ne_pending, process_voice,
      calculate_shaped_frequency, scale_lfo_base_freq, process_lfo, shaped_scaled,
      Scaler.apply, Scaler.normalize, BezierUnitShaper.make, BezierUnitShaper.apply,
      Range.make, Range.length, update_voice_state, Range.contains, constrain_frequency,
      Range.constrain, set_current_frequency, process_oscillators, Lfo.out, Lfo.advance,
      Lfo.setFreq, Lfo.reset, DEFAULT_LFO_AMPLITUDE, TARGET_FREQUENCY_TOLERANCE,
      voiceRamp1, voiceRamp2]
  refine ⟨by decide, by norm_num [voiceOvershoot1], hrun1, hrun2, ?_⟩
  exact C9_direction_monotone_within_ramp voiceOvershoot1 1 (1/2) (1/2) (by decide)
    (by norm_num) (by norm_num) (by norm_num) (by norm_num) (by norm_num)
    (by norm_num [voiceOvershoot1]) (by norm_num [voiceOvershoot1])
    (by norm_num [voiceOvershoot1]) (by norm_num [voiceOvershoot1])
    voiceRamp1 voiceRamp2 hrun1 hrun2

end Deepnote

